import Mathlib

/-!
Shallow embedding of the Gifer GIF-compression engine
(src/app/compressor/gif_optimizer.py, src/app/compressor/external_tools.py,
src/app/services/compression_service.py) together with theorems checking the
specification claims against it.

Machine integers of the source (numpy uint8 pixels) are modelled as `Fin 256`
with explicit `% 256` arithmetic; Python floats are modelled as `ℚ`; fallible
code (exceptions caught by the orchestrator) is modelled with `Except String`.
External effects (PIL decoding/encoding, the file system, subprocesses) enter
as explicit oracle parameters; everything the claims are about is translated
from the source.
-/

namespace Gifer

/-- The `CompressionSettings` dataclass of gif_optimizer.py (lines 25-51),
with its declared fields and default values (Python floats become `ℚ`). -/
structure CompressionSettings where
  max_file_size : ℕ := 14990000
  max_colors : ℕ := 256
  min_colors : ℕ := 32
  min_frame_duration : ℚ := 1/10
  duplicate_threshold : ℚ := 95/100
  enable_lossy : Bool := true
  lossy_quality : ℕ := 80
  optimize_transparency : Bool := true
  remove_duplicates : Bool := true
  allow_resize : Bool := true
  max_width : ℕ := 1920
  max_height : ℕ := 1080

/-- The default settings value `CompressionSettings()`. -/
def defaultSettings : CompressionSettings := {}

/-! Frame similarity (gif_optimizer.py lines 242-258)

`np.array` of an RGB PIL image has dtype uint8, so both the subtraction
`arr1 - arr2` and the squaring `** 2` are performed modulo 256. A downscaled
frame is modelled as its flattened uint8 pixel array `List (Fin 256)`. -/

/-- One entry of `(arr1 - arr2) ** 2` in numpy uint8 arithmetic:
the difference wraps modulo 256 and the square wraps modulo 256. -/
def pixelSqDiff (a b : Fin 256) : ℕ :=
  ((a.val + 256 - b.val) % 256) ^ 2 % 256

/-- Elementwise `(arr1 - arr2) ** 2` of two flattened uint8 arrays. -/
def sqDiffList (xs ys : List (Fin 256)) : List ℕ :=
  List.zipWith pixelSqDiff xs ys

/-- The value `np.mean((arr1 - arr2) ** 2)` (gif_optimizer.py line 255): the mean is
taken in float arithmetic, modelled exactly in `ℚ`. -/
def frameMSE (xs ys : List (Fin 256)) : ℚ :=
  ((sqDiffList xs ys).sum : ℚ) / ((sqDiffList xs ys).length : ℚ)

/-- Model of `_calculate_frame_similarity` on the two already-downscaled 64x64 pixel
arrays: the mean squared (uint8-wrapped) difference divided by `255 ** 2`
(gif_optimizer.py lines 254-258). -/
def calculate_frame_similarity (xs ys : List (Fin 256)) : ℚ :=
  frameMSE xs ys / (255 ^ 2 : ℚ)

/-- The similarity metric as the specification words it, for comparison with
`calculate_frame_similarity`: the mean of the exact (integer, non-wrapping)
squared per-channel differences divided by `255 ** 2`. -/
def claimedSimilarity (xs ys : List (Fin 256)) : ℚ :=
  (((List.zipWith (fun a b => ((a.val : ℤ) - (b.val : ℤ)) ^ 2) xs ys).sum : ℤ) : ℚ)
    / ((List.zipWith (fun a b => ((a.val : ℤ) - (b.val : ℤ)) ^ 2) xs ys).length : ℚ)
    / (255 ^ 2 : ℚ)

/-! Duplicate removal (gif_optimizer.py lines 216-240)

`_remove_duplicates` is parametrised here by the similarity function `sim`
(in the source it is `_calculate_frame_similarity` applied to the two frames'
64x64 downscaled copies) and the threshold. -/

/-- Add `d` to the last element: `optimized_durations[-1] += durations[i]`. -/
def addToLast (l : List ℚ) (d : ℚ) : List ℚ :=
  match l with
  | [] => []
  | [x] => [x + d]
  | x :: y :: xs => x :: addToLast (y :: xs) d

/-- The loop of `_remove_duplicates` (lines 228-238): `prev` is `frames[i-1]`
(the previous frame of the original sequence), `cs`/`ds` the remaining frames
and durations, `accF`/`accD` the retained frames and durations so far. -/
def rdGo (sim : α → α → ℚ) (thr : ℚ) :
    α → List α → List ℚ → List α → List ℚ → List α × List ℚ
  | _, [], _, accF, accD => (accF, accD)
  | _, _ :: _, [], accF, accD => (accF, accD)
  | prev, c :: cs, d :: ds, accF, accD =>
    if sim prev c < thr then
      rdGo sim thr c cs ds (accF ++ [c]) (accD ++ [d])
    else
      rdGo sim thr c cs ds accF (addToLast accD d)

/-- Model of `_remove_duplicates` (gif_optimizer.py lines 216-240): sequences of at
most one frame are returned unchanged; otherwise the first frame and duration
are always retained and the loop decides the rest. -/
def remove_duplicates (sim : α → α → ℚ) (thr : ℚ)
    (frames : List α) (durations : List ℚ) : List α × List ℚ :=
  if frames.length ≤ 1 then (frames, durations)
  else
    match frames, durations with
    | f0 :: fs, d0 :: ds => rdGo sim thr f0 fs ds [f0] [d0]
    | _, _ => (frames, durations)

/-! Palette search (gif_optimizer.py lines 117-141) -/

/-- The fixed descending candidate ladder of the color-reduction loop. -/
def colorLadder : List ℕ := [256, 192, 128, 96, 64, 48, 32, 24, 16]

/-- The color-reduction loop: walks the remaining ladder `l`, breaking
without a trial when a candidate drops below `minColors`, trial-encoding each
remaining candidate (`trialSize c` is the byte size of the `_create_test_gif`
artifact at `c` colors) and breaking with `best_colors = c` at the first
candidate whose trial is at most `maxFileSize`. The second component records
the candidates that were trial-encoded, in order. -/
def paletteSearchGo (minColors maxFileSize : ℕ) (trialSize : ℕ → ℕ) :
    List ℕ → ℕ → List ℕ → ℕ × List ℕ
  | [], best, tried => (best, tried)
  | c :: cs, best, tried =>
    if c < minColors then (best, tried)
    else if trialSize c ≤ maxFileSize then (c, tried ++ [c])
    else paletteSearchGo minColors maxFileSize trialSize cs best (tried ++ [c])

/-- Step 3 of `optimize_gif`: `best_colors` starts at `settings.max_colors`
and the ladder loop runs (gif_optimizer.py lines 118-141). Returns the final
`best_colors` together with the list of trial-encoded candidates. -/
def paletteSearch (s : CompressionSettings) (trialSize : ℕ → ℕ) : ℕ × List ℕ :=
  paletteSearchGo s.min_colors s.max_file_size trialSize colorLadder s.max_colors []

/-! Loading and the optimization pipeline (gif_optimizer.py lines 60-214)

A source file is modelled as `Option (List (α × Option ℕ))`: `none` is a file
the image library cannot open (`Image.open` raises), `some l` is the decoded
frame sequence, each frame paired with its optional duration metadata in
milliseconds. Encoded artifact sizes are supplied by oracles, since actual
GIF encoding is an external library call. -/

/-- Model of `_load_gif_frames` (lines 199-214): raises if the container is invalid,
otherwise returns every frame (converted to RGB) and its duration in seconds,
defaulting to 100 ms when the frame has no duration metadata. -/
def load_gif_frames (decoded : Option (List (α × Option ℕ))) :
    Except String (List α × List ℚ) :=
  match decoded with
  | none => Except.error "cannot identify image file"
  | some l =>
      Except.ok (l.map Prod.fst, l.map (fun p => ((p.2.getD 100 : ℕ) : ℚ) / 1000))

/-- Python `min` over a list: raises on an empty sequence. -/
def pyMin (l : List ℚ) : Except String ℚ :=
  match l with
  | [] => Except.error "min arg is an empty sequence"
  | x :: xs => Except.ok (xs.foldl min x)

/-- Model of `_optimize_frame_timing` (line 262): clamp every duration up to the
configured minimum. -/
def optimize_frame_timing (s : CompressionSettings) (durations : List ℚ) : List ℚ :=
  durations.map (fun d => max d s.min_frame_duration)

/-- Result record of `optimize_gif`, keeping the fields the claims are about:
whether the run succeeded, whether an exception was caught (`stats` then
carries an error and nothing was written), whether an artifact was moved to
the output path, the color count of the final encode, the artifact size
before any resize, the final size, and whether the resize stage replaced the
artifact. -/
structure OptStats where
  success : Bool
  errored : Bool
  written : Bool
  final_colors : Option ℕ
  pre_size : Option ℕ
  final_size : Option ℕ
  resized : Bool

/-- The body of the `try` block of `optimize_gif` (lines 93-185): load,
dedupe, timing floor, palette search, final encode, optional resize.
`trialSize`/`finalSize` give the encoded byte size of `_create_test_gif` and
`_create_optimized_gif` for given frames, durations and colors; `resizedSize`
gives the size of the `_resize_gif_if_needed` artifact from the pre-resize
size. Returns `(best_colors, final byte size, pre-resize byte size, resized)`. -/
def optimize_gif_core (s : CompressionSettings) (sim : α → α → ℚ)
    (trialSize : List α → List ℚ → ℕ → ℕ)
    (finalSize : List α → List ℚ → ℕ → ℕ)
    (resizedSize : ℕ → ℕ)
    (decoded : Option (List (α × Option ℕ))) :
    Except String (ℕ × ℕ × ℕ × Bool) :=
  Except.bind (load_gif_frames decoded) (fun fd =>
    let p :=
      if s.remove_duplicates then
        remove_duplicates sim s.duplicate_threshold fd.1 fd.2
      else fd
    Except.bind (pyMin p.2) (fun m =>
      let od := if m < s.min_frame_duration then optimize_frame_timing s p.2 else p.2
      let best := (paletteSearchGo s.min_colors s.max_file_size
        (trialSize p.1 od) colorLadder s.max_colors []).1
      let temp := finalSize p.1 od best
      if s.max_file_size < temp ∧ s.allow_resize = true then
        Except.ok (best, resizedSize temp, temp, true)
      else
        Except.ok (best, temp, temp, false)))

/-- Model of `optimize_gif` (lines 60-197): on an uncaught-free run the artifact is
moved to the output path and `success` is whether the final size meets the
target; a caught exception yields a failure record with nothing written. -/
def optimize_gif (s : CompressionSettings) (sim : α → α → ℚ)
    (trialSize : List α → List ℚ → ℕ → ℕ)
    (finalSize : List α → List ℚ → ℕ → ℕ)
    (resizedSize : ℕ → ℕ)
    (decoded : Option (List (α × Option ℕ))) : OptStats :=
  match optimize_gif_core s sim trialSize finalSize resizedSize decoded with
  | Except.ok (best, fin, pre, resized) =>
      { success := decide (fin ≤ s.max_file_size), errored := false,
        written := true, final_colors := some best, pre_size := some pre,
        final_size := some fin, resized := resized }
  | Except.error _ =>
      { success := false, errored := true, written := false,
        final_colors := none, pre_size := none, final_size := none,
        resized := false }

/-! Resize geometry (gif_optimizer.py lines 327-373)

`_resize_gif_if_needed` computes `scale_factor = (max_file_size /
current_size) ** 0.5` in float arithmetic; the dimension computation below is
parametrised by that (nonnegative) scale factor. Python `int()` on the
nonnegative floats involved is the floor. -/

/-- The new-dimension computation of `_resize_gif_if_needed` (lines 340-350):
clamp each scaled dimension to the configured maximum, then recompute one
dimension from the other to re-snap the aspect ratio. -/
def resize_dims (s : CompressionSettings) (ow oh : ℕ) (scale : ℚ) : ℕ × ℕ :=
  let nw := min (Int.toNat ⌊(ow : ℚ) * scale⌋) s.max_width
  let nh := min (Int.toNat ⌊(oh : ℚ) * scale⌋) s.max_height
  let ar : ℚ := (ow : ℚ) / (oh : ℚ)
  if (nw : ℚ) / (nh : ℚ) > ar then (Int.toNat ⌊(nh : ℚ) * ar⌋, nh)
  else (nw, Int.toNat ⌊(nw : ℚ) / ar⌋)

/-! External tools (external_tools.py) -/

/-- Observable outcome of one Gifsicle subprocess call: its exit code and
whether the expected output file exists after the call. -/
structure GifsicleRun where
  returncode : ℤ
  output_exists_after : Bool

/-- The success value returned by `_run_gifsicle` (external_tools.py lines
327-347): a timeout (or other exception) is a failure; exit code 0 is a
success; a non-zero exit code is still a success exactly when the output file
exists. -/
def run_gifsicle (timedOut : Bool) (r : GifsicleRun) : Bool :=
  if timedOut then false
  else if r.returncode = 0 then true
  else r.output_exists_after

/-- The success value returned by `optimize_with_gifsicle` (external_tools.py
lines 79-189): failure when the tool is unavailable (lines 96-101), when the
input file is missing (lines 106-107), or when the attempt loop raised
(lines 187-189); otherwise success is exactly whether the output file exists
at the end (lines 167-185) — the attempt loop of lines 111-165 only writes
artifacts and records attempts, abstracted here into `outputExistsAtEnd`. -/
def optimize_with_gifsicle (toolAvailable inputExists raised : Bool)
    (outputExistsAtEnd : Bool) : Bool :=
  if toolAvailable = false then false
  else if inputExists = false then false
  else if raised = true then false
  else outputExistsAtEnd

/-! Service layer (src/app/services/compression_service.py lines 27-115) -/

/-- The field names declared by the `CompressionSettings` dataclass
(gif_optimizer.py lines 25-51); its generated constructor accepts exactly
these keywords. -/
def compressionSettingsFields : List String :=
  ["max_file_size", "max_colors", "min_colors", "min_frame_duration",
   "duplicate_threshold", "enable_lossy", "lossy_quality",
   "optimize_transparency", "remove_duplicates", "allow_resize",
   "max_width", "max_height"]

/-- The keyword arguments `compress_gif_file` always passes to the
`CompressionSettings` constructor when `custom_settings` is not None
(compression_service.py lines 80-91). -/
def serviceSettingsKwargs : List String :=
  ["max_file_size", "max_colors", "min_colors", "min_frame_duration",
   "enable_lossy", "optimize_transparency", "remove_duplicates",
   "enable_frame_subsampling", "use_external_tools", "allow_resize"]

/-- A Python dataclass constructor call: raises `TypeError` at the first
passed keyword that is not a declared field. -/
def dataclassInitKw (declared passed : List String) : Except String Unit :=
  match passed.find? (fun k => !(declared.contains k)) with
  | some k => Except.error ("TypeError: unexpected keyword argument " ++ k)
  | none => Except.ok ()

/-- The result dictionary of `CompressionService.compress_gif_file`, keeping
the keys the claims are about. `output_bytes` is the content written at the
final output path (`none` when the function wrote nothing itself);
`reached_compressor` records whether the core compressor was invoked. -/
structure ServiceResult where
  success : Bool
  skipped_compression : Bool
  error : Option String
  original_size : Option ℕ
  final_size : Option ℕ
  techniques_used : List String
  output_bytes : Option (List (Fin 256))
  reached_compressor : Bool

/-- Model of `CompressionService.compress_gif_file` (compression_service.py lines
27-115). The input file is its byte content; `target = max_size_mb * 1024 *
1024` in float arithmetic (modelled in `ℚ`). If the input is already at most
the target and compression is not forced, the skip path copies the input
unchanged (`shutil.copy2`, byte-identical) and returns the skip record
(lines 46-71). Otherwise, when `custom` holds (`custom_settings` is not
None), the `CompressionSettings` constructor is called with the fixed
keyword set; the raised `TypeError` is caught at lines 109-115 and turned
into a failure record. Only if construction succeeds does the core
compressor run, its result `coreR` being returned. -/
def compress_gif_file (content : List (Fin 256)) (max_size_mb : ℚ)
    (custom force : Bool) (coreR : ServiceResult) : ServiceResult :=
  let size := content.length
  let target : ℚ := max_size_mb * 1024 * 1024
  if force = false ∧ (size : ℚ) ≤ target then
    { success := true, skipped_compression := true, error := none,
      original_size := some size, final_size := some size,
      techniques_used := ["no_compression_needed"],
      output_bytes := some content, reached_compressor := false }
  else
    match (if custom then dataclassInitKw compressionSettingsFields serviceSettingsKwargs
           else Except.ok ()) with
    | Except.error e =>
        { success := false, skipped_compression := false, error := some e,
          original_size := none, final_size := none, techniques_used := [],
          output_bytes := none, reached_compressor := false }
    | Except.ok _ => { coreR with reached_compressor := true }

/-! Concrete values used by witnesses and counterexamples -/

/-- An arbitrary placeholder for the core compressor's result. -/
def placeholderCore : ServiceResult :=
  { success := false, skipped_compression := false, error := none,
    original_size := none, final_size := none, techniques_used := [],
    output_bytes := none, reached_compressor := false }

/-- A trial-size oracle for which the target is first reachable at 128
colors: 256 and 192 colors encode to 20 MB, 128 and below to 10 MB. -/
def demoTrialSize : ℕ → ℕ := fun c => if 128 < c then 20000000 else 10000000

/-- A trial/encode-size oracle whose artifacts always exceed the default
14 990 000-byte target. -/
def oversizeOracle : List ℕ → List ℚ → ℕ → ℕ := fun _ _ _ => 20000000

/-! Helper lemmas -/

theorem except_bind_ok {ε A B : Type} (a : A) (g : A → Except ε B) :
    Except.bind (Except.ok a) g = g a := rfl

theorem except_bind_error {ε A B : Type} (e : ε) (g : A → Except ε B) :
    Except.bind (Except.error e : Except ε A) g = Except.error e := rfl

theorem addToLast_sum : ∀ (l : List ℚ) (d : ℚ), l ≠ [] → (addToLast l d).sum = l.sum + d
  | [], _, h => absurd rfl h
  | [x], d, _ => by simp [addToLast]
  | x :: y :: xs, d, _ => by
      have ih := addToLast_sum (y :: xs) d (by simp)
      simp only [addToLast, List.sum_cons] at ih ⊢
      rw [ih]; ring

theorem addToLast_ne_nil : ∀ (l : List ℚ) (d : ℚ), l ≠ [] → addToLast l d ≠ []
  | [], _, h => absurd rfl h
  | [_], _, _ => by simp [addToLast]
  | _ :: _ :: _, _, _ => by simp [addToLast]

theorem rdGo_sum (sim : α → α → ℚ) (thr : ℚ) :
    ∀ (cs : List α) (ds : List ℚ) (prev : α) (accF : List α) (accD : List ℚ),
      cs.length = ds.length → accD ≠ [] →
      ((rdGo sim thr prev cs ds accF accD).2).sum = accD.sum + ds.sum := by
  intro cs
  induction cs with
  | nil =>
    intro ds prev accF accD hlen _
    have hds : ds = [] := List.length_eq_zero.mp hlen.symm
    subst hds
    simp [rdGo]
  | cons c cs ih =>
    intro ds prev accF accD hlen hne
    cases ds with
    | nil => simp at hlen
    | cons d ds =>
      simp only [rdGo]
      by_cases h : sim prev c < thr
      · rw [if_pos h,
          ih ds c (accF ++ [c]) (accD ++ [d]) (by simpa using hlen) (by simp)]
        simp; ring
      · rw [if_neg h,
          ih ds c accF (addToLast accD d) (by simpa using hlen)
            (addToLast_ne_nil accD d hne),
          addToLast_sum accD d hne]
        simp; ring

theorem rdGo_first (sim : α → α → ℚ) (thr : ℚ) :
    ∀ (cs : List α) (ds : List ℚ) (prev f0 : α) (accF : List α) (accD : List ℚ),
      ((rdGo sim thr prev cs ds (f0 :: accF) accD).1).head? = some f0 := by
  intro cs
  induction cs with
  | nil => intro ds prev f0 accF accD; simp [rdGo]
  | cons c cs ih =>
    intro ds prev f0 accF accD
    cases ds with
    | nil => simp [rdGo]
    | cons d ds =>
      simp only [rdGo]
      by_cases h : sim prev c < thr
      · rw [if_pos h]
        have hc : (f0 :: accF) ++ [c] = f0 :: (accF ++ [c]) := by simp
        rw [hc]
        exact ih ds c f0 (accF ++ [c]) (accD ++ [d])
      · rw [if_neg h]
        exact ih ds c f0 accF (addToLast accD d)

theorem rdGo_keep_all (sim : α → α → ℚ) (thr : ℚ)
    (hall : ∀ a b, sim a b < thr) :
    ∀ (cs : List α) (ds : List ℚ) (prev : α) (accF : List α) (accD : List ℚ),
      cs.length = ds.length →
      rdGo sim thr prev cs ds accF accD = (accF ++ cs, accD ++ ds) := by
  intro cs
  induction cs with
  | nil =>
    intro ds prev accF accD hlen
    have hds : ds = [] := List.length_eq_zero.mp hlen.symm
    subst hds
    simp [rdGo]
  | cons c cs ih =>
    intro ds prev accF accD hlen
    cases ds with
    | nil => simp at hlen
    | cons d ds =>
      simp only [rdGo, if_pos (hall prev c)]
      rw [ih ds c (accF ++ [c]) (accD ++ [d]) (by simpa using hlen)]
      simp

theorem psGo_spec (minC maxF : ℕ) (trial : ℕ → ℕ) :
    ∀ (l tried : List ℕ) (best : ℕ),
      (∀ c ∈ tried, minC ≤ c) →
      (∀ c ∈ tried, maxF < trial c) →
      (∃ rest, (paletteSearchGo minC maxF trial l best tried).2 ++ rest = tried ++ l) ∧
      (∀ c ∈ (paletteSearchGo minC maxF trial l best tried).2, minC ≤ c) ∧
      (∀ c ∈ (paletteSearchGo minC maxF trial l best tried).2, trial c ≤ maxF →
        (paletteSearchGo minC maxF trial l best tried).2.getLast? = some c ∧
        (paletteSearchGo minC maxF trial l best tried).1 = c) := by
  intro l
  induction l with
  | nil =>
    intro tried best hmin hfail
    simp only [paletteSearchGo]
    refine ⟨⟨[], by simp⟩, hmin, ?_⟩
    intro c hc hle
    exact absurd hle (not_le.mpr (hfail c hc))
  | cons c cs ih =>
    intro tried best hmin hfail
    simp only [paletteSearchGo]
    by_cases h1 : c < minC
    · rw [if_pos h1]
      refine ⟨⟨c :: cs, rfl⟩, hmin, ?_⟩
      intro c' hc' hle
      exact absurd hle (not_le.mpr (hfail c' hc'))
    · rw [if_neg h1]
      by_cases h2 : trial c ≤ maxF
      · rw [if_pos h2]
        refine ⟨⟨cs, by simp⟩, ?_, ?_⟩
        · intro c' hc'
          rcases List.mem_append.mp hc' with h | h
          · exact hmin c' h
          · rw [List.mem_singleton.mp h]; exact le_of_not_lt h1
        · intro c' hc' hle
          rcases List.mem_append.mp hc' with h | h
          · exact absurd hle (not_le.mpr (hfail c' h))
          · rw [List.mem_singleton.mp h]
            exact ⟨List.getLast?_concat tried, rfl⟩
      · rw [if_neg h2]
        have hmin2 : ∀ c' ∈ tried ++ [c], minC ≤ c' := by
          intro c' hc'
          rcases List.mem_append.mp hc' with h | h
          · exact hmin c' h
          · rw [List.mem_singleton.mp h]; exact le_of_not_lt h1
        have hfail2 : ∀ c' ∈ tried ++ [c], maxF < trial c' := by
          intro c' hc'
          rcases List.mem_append.mp hc' with h | h
          · exact hfail c' h
          · rw [List.mem_singleton.mp h]; exact lt_of_not_le h2
        simpa [List.append_assoc] using ih (tried ++ [c]) best hmin2 hfail2

/-! Claim theorems -/

/-- Claim C4: for every non-empty frame list with an equal-length duration
list, `_remove_duplicates` conserves the sum of durations (each dropped
frame's duration is merged into the last retained one) and always retains
the first frame. -/
theorem duration_conservation (sim : α → α → ℚ) (thr : ℚ)
    (frames : List α) (durations : List ℚ)
    (hne : frames ≠ []) (hlen : frames.length = durations.length) :
    ((remove_duplicates sim thr frames durations).2).sum = durations.sum ∧
    ((remove_duplicates sim thr frames durations).1).head? = frames.head? := by
  unfold remove_duplicates
  by_cases h : frames.length ≤ 1
  · rw [if_pos h]; exact ⟨rfl, rfl⟩
  · rw [if_neg h]
    cases frames with
    | nil => exact absurd rfl hne
    | cons f0 fs =>
      cases durations with
      | nil => simp at hlen
      | cons d0 ds =>
        refine ⟨?_, ?_⟩
        · rw [rdGo_sum sim thr fs ds f0 [f0] [d0] (by simpa using hlen) (by simp)]
          simp
        · rw [rdGo_first sim thr fs ds f0 f0 [] [d0]]
          simp

/-- Witness for C4 at a concrete input: three frames where the middle one is
a near-duplicate of the first; durations sum to 6 before and after. -/
theorem duration_conservation_witness :
    ((remove_duplicates (fun a b : ℕ => if a = b then 1 else 0) (1/2)
        [1, 1, 2] [1, 2, 3]).2).sum = ([1, 2, 3] : List ℚ).sum ∧
    ((remove_duplicates (fun a b : ℕ => if a = b then 1 else 0) (1/2)
        [1, 1, 2] [1, 2, 3]).1).head? = ([1, 1, 2] : List ℕ).head? :=
  duration_conservation (fun a b : ℕ => if a = b then 1 else 0) (1/2)
    [1, 1, 2] [1, 2, 3] (by simp) (by simp)

/-- Claim C5: the ladder is walked strictly in order (the trial-encoded
candidates form a prefix of the ladder), no candidate below `min_colors` is
ever trial-encoded, and any trial-encoded candidate that meets the target is
the last one tried and becomes the result (so every earlier, larger
candidate's trial exceeded the target and nothing after it is tried). -/
theorem palette_search_greedy (s : CompressionSettings) (trial : ℕ → ℕ) :
    (∃ rest, (paletteSearch s trial).2 ++ rest = colorLadder) ∧
    (∀ c ∈ (paletteSearch s trial).2, s.min_colors ≤ c) ∧
    (∀ c ∈ (paletteSearch s trial).2, trial c ≤ s.max_file_size →
      (paletteSearch s trial).2.getLast? = some c ∧ (paletteSearch s trial).1 = c) := by
  have h := psGo_spec s.min_colors s.max_file_size trial colorLadder []
    s.max_colors (by simp) (by simp)
  simpa [paletteSearch] using h

/-- Witness for C5: with trials of 20 MB at 256 and 192 colors and 10 MB from
128 colors down, the search trial-encodes exactly [256, 192, 128] and stops
at 128 — 96 and smaller are never tried. -/
theorem palette_search_greedy_witness :
    ((paletteSearch defaultSettings demoTrialSize).2.getLast? = some 128 ∧
      (paletteSearch defaultSettings demoTrialSize).1 = 128) ∧
    (paletteSearch defaultSettings demoTrialSize).2 = [256, 192, 128] :=
  ⟨(palette_search_greedy defaultSettings demoTrialSize).2.2 128
      (by decide) (by decide),
    by decide⟩

/-- Claim C1 (evaluating the code at a failing input): when every trial
encode exceeds the target, the loop never assigns `best_colors`, so the
search ends with `best_colors = max_colors = 256` — the final GIF is encoded
at 256 colors, not at the lowest tested count (32) — even though every
candidate down to 32 was trial-encoded and failed. -/
theorem palette_fallback_keeps_max_colors :
    paletteSearch defaultSettings (fun _ => 20000000)
      = (256, [256, 192, 128, 96, 64, 48, 32]) ∧
    (optimize_gif defaultSettings (fun _ _ => (0 : ℚ)) oversizeOracle
        oversizeOracle (fun n => n) (some [((0 : ℕ), none)])).final_colors
      = some 256 := by
  constructor
  · decide
  · decide

theorem pixelSqDiff_le (a b : Fin 256) : pixelSqDiff a b ≤ 255 :=
  Nat.le_of_lt_succ (Nat.mod_lt _ (by norm_num))

theorem pixelSqDiff_self (a : Fin 256) : pixelSqDiff a a = 0 := by
  unfold pixelSqDiff
  have h : (a.val + 256 - a.val) % 256 = 0 := by omega
  rw [h]
  norm_num

theorem sqDiffList_sum_le : ∀ (xs ys : List (Fin 256)),
    (sqDiffList xs ys).sum ≤ 255 * (sqDiffList xs ys).length
  | [], _ => by simp [sqDiffList]
  | _ :: _, [] => by simp [sqDiffList]
  | x :: xs, y :: ys => by
      have h1 := pixelSqDiff_le x y
      have h2 := sqDiffList_sum_le xs ys
      simp only [sqDiffList, List.zipWith_cons_cons, List.sum_cons,
        List.length_cons] at h2 ⊢
      omega

theorem sqDiffList_self_sum (xs : List (Fin 256)) : (sqDiffList xs xs).sum = 0 := by
  induction xs with
  | nil => rfl
  | cons x xs ih =>
    simp only [sqDiffList, List.zipWith_cons_cons, List.sum_cons] at ih ⊢
    rw [pixelSqDiff_self, ih]

theorem frameMSE_nonneg (xs ys : List (Fin 256)) : 0 ≤ frameMSE xs ys :=
  div_nonneg (by positivity) (by positivity)

theorem frameMSE_le (xs ys : List (Fin 256)) : frameMSE xs ys ≤ 255 := by
  unfold frameMSE
  rcases Nat.eq_zero_or_pos (sqDiffList xs ys).length with h | h
  · rw [List.length_eq_zero.mp h]
    simp
  · rw [div_le_iff₀ (by exact_mod_cast h)]
    calc ((sqDiffList xs ys).sum : ℚ)
        ≤ ((255 * (sqDiffList xs ys).length : ℕ) : ℚ) := by
          exact_mod_cast sqDiffList_sum_le xs ys
      _ = 255 * ((sqDiffList xs ys).length : ℚ) := by push_cast; ring

theorem calculate_frame_similarity_self (xs : List (Fin 256)) :
    calculate_frame_similarity xs xs = 0 := by
  unfold calculate_frame_similarity frameMSE
  rw [sqDiffList_self_sum]
  simp

theorem calculate_frame_similarity_nonneg (xs ys : List (Fin 256)) :
    0 ≤ calculate_frame_similarity xs ys :=
  div_nonneg (frameMSE_nonneg xs ys) (by norm_num)

theorem calculate_frame_similarity_le (xs ys : List (Fin 256)) :
    calculate_frame_similarity xs ys ≤ 255 / 65025 := by
  unfold calculate_frame_similarity
  have h := frameMSE_le xs ys
  have h2 : (255 : ℚ) ^ 2 = 65025 := by norm_num
  rw [h2]
  exact (div_le_div_iff_of_pos_right (by norm_num)).mpr h

/-- Claim C2 (amended): the similarity is the mean of the uint8-wrapped
squared differences divided by 255 squared; it is 0 for identical frames and
lies in [0, 255/65025] — it never approaches 1. -/
theorem similarity_bounds (xs ys : List (Fin 256)) :
    calculate_frame_similarity xs xs = 0 ∧
    0 ≤ calculate_frame_similarity xs ys ∧
    calculate_frame_similarity xs ys ≤ 255 / 65025 :=
  ⟨calculate_frame_similarity_self xs,
    calculate_frame_similarity_nonneg xs ys,
    calculate_frame_similarity_le xs ys⟩

/-- Counterexample for C2: on a pure-black versus pure-white downscaled
frame, the uint8 arithmetic wraps (0 - 255 wraps to 1, 1 squared is 1), so
the code returns 1/65025 where the claimed exact-difference formula gives 1. -/
theorem similarity_wraparound_cex :
    calculate_frame_similarity [(0 : Fin 256)] [(255 : Fin 256)] = 1 / 65025 ∧
    claimedSimilarity [(0 : Fin 256)] [(255 : Fin 256)] = 1 ∧
    (1 / 65025 : ℚ) ≠ 1 := by
  have hpx : pixelSqDiff (0 : Fin 256) (255 : Fin 256) = 1 := by decide
  have h0 : (((0 : Fin 256) : ℕ) : ℤ) = 0 := by decide
  have h255 : (((255 : Fin 256) : ℕ) : ℤ) = 255 := by decide
  refine ⟨?_, ?_, by norm_num⟩
  · unfold calculate_frame_similarity frameMSE sqDiffList
    simp [hpx]
    norm_num
  · unfold claimedSimilarity
    simp [h0, h255]
    norm_num

/-- Claim C10: the wrapped squared difference never exceeds 255, so the
similarity of any two frames (through any downscaling) is at most
255/65025 < 0.004; hence for any threshold above 255/65025 — in particular
the default 0.95 — `_remove_duplicates` keeps every frame and returns its
input unchanged. -/
theorem similarity_wraparound_no_dedup :
    (∀ (α : Type) (ds : α → List (Fin 256)) (f g : α),
      calculate_frame_similarity (ds f) (ds g) ≤ 255 / 65025) ∧
    ((255 : ℚ) / 65025 < defaultSettings.duplicate_threshold) ∧
    (∀ (α : Type) (ds : α → List (Fin 256)) (thr : ℚ), 255 / 65025 < thr →
      ∀ (frames : List α) (durations : List ℚ),
        frames.length = durations.length →
        remove_duplicates
            (fun f g => calculate_frame_similarity (ds f) (ds g)) thr
            frames durations
          = (frames, durations)) := by
  refine ⟨?_, ?_, ?_⟩
  · intro α ds f g
    exact calculate_frame_similarity_le (ds f) (ds g)
  · norm_num [defaultSettings]
  · intro α ds thr hthr frames durations hlen
    have hall : ∀ a b : α,
        calculate_frame_similarity (ds a) (ds b) < thr := by
      intro a b
      exact lt_of_le_of_lt (calculate_frame_similarity_le (ds a) (ds b)) hthr
    unfold remove_duplicates
    by_cases h : frames.length ≤ 1
    · rw [if_pos h]
    · rw [if_neg h]
      cases frames with
      | nil => rfl
      | cons f0 fs =>
        cases durations with
        | nil => simp at hlen
        | cons d0 ds0 =>
          show rdGo (fun f g => calculate_frame_similarity (ds f) (ds g)) thr
              f0 fs ds0 [f0] [d0] = (f0 :: fs, d0 :: ds0)
          rw [rdGo_keep_all _ thr hall fs ds0 f0 [f0] [d0] (by simpa using hlen)]
          simp

/-- Witness for C10 at a concrete input: two visibly different downscaled
frames (all-black and all-white single-pixel arrays) still count as
near-duplicates never, and `_remove_duplicates` at the default threshold
returns both frames and durations unchanged. -/
theorem similarity_wraparound_no_dedup_witness :
    remove_duplicates
        (fun f g => calculate_frame_similarity
          ((fun l : List (Fin 256) => l) f) ((fun l : List (Fin 256) => l) g))
        (95 / 100) [[(0 : Fin 256)], [(255 : Fin 256)]] [1, 2]
      = ([[(0 : Fin 256)], [(255 : Fin 256)]], [1, 2]) :=
  similarity_wraparound_no_dedup.2.2 (List (Fin 256)) (fun l => l) (95 / 100)
    (by norm_num) [[(0 : Fin 256)], [(255 : Fin 256)]] [1, 2] (by simp)

/-- Claim C3: when the input is already at most the target byte size and
compression is not forced, `compress_gif_file` skips every stage: it reports
success with `skipped_compression`, equal original and final sizes, the
single technique tag, and passes the input bytes through unchanged without
reaching the compressor. -/
theorem skip_path_spec (content : List (Fin 256)) (max_size_mb : ℚ)
    (custom : Bool) (coreR : ServiceResult)
    (h : (content.length : ℚ) ≤ max_size_mb * 1024 * 1024) :
    (compress_gif_file content max_size_mb custom false coreR).success = true ∧
    (compress_gif_file content max_size_mb custom false coreR).skipped_compression = true ∧
    (compress_gif_file content max_size_mb custom false coreR).original_size
      = some content.length ∧
    (compress_gif_file content max_size_mb custom false coreR).final_size
      = some content.length ∧
    (compress_gif_file content max_size_mb custom false coreR).techniques_used
      = ["no_compression_needed"] ∧
    (compress_gif_file content max_size_mb custom false coreR).output_bytes
      = some content ∧
    (compress_gif_file content max_size_mb custom false coreR).reached_compressor
      = false := by
  simp only [compress_gif_file]
  rw [if_pos ⟨by trivial, h⟩]
  exact ⟨rfl, rfl, rfl, rfl, rfl, rfl, rfl⟩

/-- Witness for C3: a 2-byte file against a 1 MB target. -/
theorem skip_path_spec_witness :
    (compress_gif_file [0, 1] 1 true false placeholderCore).success = true ∧
    (compress_gif_file [0, 1] 1 true false placeholderCore).skipped_compression = true ∧
    (compress_gif_file [0, 1] 1 true false placeholderCore).original_size = some 2 ∧
    (compress_gif_file [0, 1] 1 true false placeholderCore).final_size = some 2 ∧
    (compress_gif_file [0, 1] 1 true false placeholderCore).techniques_used
      = ["no_compression_needed"] ∧
    (compress_gif_file [0, 1] 1 true false placeholderCore).output_bytes
      = some [0, 1] ∧
    (compress_gif_file [0, 1] 1 true false placeholderCore).reached_compressor
      = false := by
  have h := skip_path_spec [0, 1] 1 true placeholderCore (by norm_num)
  simpa using h

/-- Counterexample for C9: with a non-None `custom_settings`, an input
already under target and `force_compression=False`, the adaptive skip path
returns before any `CompressionSettings` construction, so the call succeeds
— the claim that such calls always return `success=False` is false. -/
theorem custom_settings_skip_cex :
    (compress_gif_file [] (1499 / 100) true false placeholderCore).success = true ∧
    (compress_gif_file [] (1499 / 100) true false placeholderCore).skipped_compression
      = true ∧
    (compress_gif_file [] (1499 / 100) true false placeholderCore).error = none := by
  simp only [compress_gif_file]
  rw [if_pos ⟨by trivial, by norm_num⟩]
  exact ⟨rfl, rfl, rfl⟩

/-- Claim C9 (amended): whenever the skip path does not trigger (compression
forced, or the input strictly above target), a non-None `custom_settings`
makes the `CompressionSettings` constructor raise `TypeError` on the
undeclared keyword `enable_frame_subsampling`; the exception handler turns
this into a failure record and the core compressor is never reached. -/
theorem custom_settings_typeerror (content : List (Fin 256)) (max_size_mb : ℚ)
    (force : Bool) (coreR : ServiceResult)
    (h : force = true ∨ max_size_mb * 1024 * 1024 < (content.length : ℚ)) :
    (compress_gif_file content max_size_mb true force coreR).success = false ∧
    (compress_gif_file content max_size_mb true force coreR).reached_compressor
      = false ∧
    (compress_gif_file content max_size_mb true force coreR).error
      = some "TypeError: unexpected keyword argument enable_frame_subsampling" := by
  have hcond : ¬ (force = false ∧
      (content.length : ℚ) ≤ max_size_mb * 1024 * 1024) := by
    rintro ⟨h1, h2⟩
    rcases h with h | h
    · rw [h] at h1; cases h1
    · exact absurd h2 (not_le.mpr h)
  simp only [compress_gif_file]
  rw [if_neg hcond]
  exact ⟨rfl, rfl, rfl⟩

/-- Witness for C9 (amended): a 1-byte input with a zero-MB target. -/
theorem custom_settings_typeerror_witness :
    (compress_gif_file [0] 0 true false placeholderCore).success = false ∧
    (compress_gif_file [0] 0 true false placeholderCore).reached_compressor = false ∧
    (compress_gif_file [0] 0 true false placeholderCore).error
      = some "TypeError: unexpected keyword argument enable_frame_subsampling" :=
  custom_settings_typeerror [0] 0 false placeholderCore (Or.inr (by norm_num))

/-- Claim C6: in `_run_gifsicle` a non-zero exit code (without a timeout) is
reported as success exactly when the expected output file exists afterwards,
and `optimize_with_gifsicle` (tool available, input present, no exception)
reports success exactly when the output file exists at the end. -/
theorem gifsicle_soft_failure :
    (∀ r : GifsicleRun, r.returncode ≠ 0 →
      run_gifsicle false r = r.output_exists_after) ∧
    (∀ outputExistsAtEnd : Bool,
      optimize_with_gifsicle true true false outputExistsAtEnd
        = outputExistsAtEnd) := by
  constructor
  · intro r h
    simp [run_gifsicle, h]
  · intro b
    rfl

/-- Witness for C6: exit code 1 with the output file present is a success. -/
theorem gifsicle_soft_failure_witness :
    run_gifsicle false { returncode := 1, output_exists_after := true } = true := by
  have h := gifsicle_soft_failure.1
    { returncode := 1, output_exists_after := true } (by norm_num)
  simpa using h

/-- Counterexample for C7: a container that decodes to zero frames does not
make loading fail — `_load_gif_frames` returns an empty frame and duration
list successfully (and the source has no `DecodeError` type at all). -/
theorem zero_frames_load_cex :
    load_gif_frames (some ([] : List (ℕ × Option ℕ))) = Except.ok ([], []) := rfl

/-- Claim C7 (amended): for an invalid container the image-library open
raises, and for a zero-frame decode the pipeline fails later at the
frame-timing step (`min` of an empty duration list); in both cases
`optimize_gif` catches the exception, reports failure with an error, and
writes nothing to the output path. -/
theorem zero_frames_pipeline_fails (α : Type) (s : CompressionSettings)
    (sim : α → α → ℚ) (tS fS : List α → List ℚ → ℕ → ℕ) (rS : ℕ → ℕ)
    (decoded : Option (List (α × Option ℕ)))
    (h : decoded = none ∨ decoded = some []) :
    (optimize_gif s sim tS fS rS decoded).errored = true ∧
    (optimize_gif s sim tS fS rS decoded).success = false ∧
    (optimize_gif s sim tS fS rS decoded).written = false := by
  rcases h with h | h <;> subst h
  · exact ⟨rfl, rfl, rfl⟩
  · cases hrd : s.remove_duplicates <;>
      simp [optimize_gif, optimize_gif_core, load_gif_frames,
        remove_duplicates, pyMin, hrd, Except.bind]

/-- Witness for C7 (amended): a concrete zero-frame container under the
default settings fails with nothing written. -/
theorem zero_frames_pipeline_fails_witness :
    (optimize_gif defaultSettings (fun _ _ : ℕ => (0 : ℚ)) oversizeOracle
        oversizeOracle (fun n => n)
        (some ([] : List (ℕ × Option ℕ)))).errored = true ∧
    (optimize_gif defaultSettings (fun _ _ : ℕ => (0 : ℚ)) oversizeOracle
        oversizeOracle (fun n => n)
        (some ([] : List (ℕ × Option ℕ)))).success = false ∧
    (optimize_gif defaultSettings (fun _ _ : ℕ => (0 : ℚ)) oversizeOracle
        oversizeOracle (fun n => n)
        (some ([] : List (ℕ × Option ℕ)))).written = false :=
  zero_frames_pipeline_fails ℕ defaultSettings (fun _ _ => 0) oversizeOracle
    oversizeOracle (fun n => n) (some []) (Or.inr rfl)

theorem core_resized (α : Type) (s : CompressionSettings) (sim : α → α → ℚ)
    (tS fS : List α → List ℚ → ℕ → ℕ) (rS : ℕ → ℕ)
    (decoded : Option (List (α × Option ℕ))) (b f p : ℕ)
    (h : optimize_gif_core s sim tS fS rS decoded = Except.ok (b, f, p, true)) :
    s.allow_resize = true ∧ s.max_file_size < p := by
  simp only [optimize_gif_core] at h
  rcases hld : load_gif_frames (α := α) decoded with e | fd
  · rw [hld, except_bind_error] at h
    cases h
  · simp only [hld, except_bind_ok] at h
    set P := (if s.remove_duplicates then
        remove_duplicates sim s.duplicate_threshold fd.1 fd.2
      else fd) with hP
    rcases hm : pyMin P.2 with e | m
    · rw [hm, except_bind_error] at h
      cases h
    · simp only [hm, except_bind_ok] at h
      set od := (if m < s.min_frame_duration then
          optimize_frame_timing s P.2 else P.2) with hod
      set best := (paletteSearchGo s.min_colors s.max_file_size
        (tS P.1 od) colorLadder s.max_colors []).1 with hbest
      set temp := fS P.1 od best with htemp
      by_cases hc : s.max_file_size < temp ∧ s.allow_resize = true
      · rw [if_pos hc] at h
        simp only [Except.ok.injEq, Prod.mk.injEq] at h
        obtain ⟨-, -, hp, -⟩ := h
        exact ⟨hc.2, hp ▸ hc.1⟩
      · rw [if_neg hc] at h
        simp only [Except.ok.injEq, Prod.mk.injEq] at h
        exact absurd h.2.2.2 (by simp)

/-- Counterexample for C8: a 7x2 GIF at scale 1/2 (the exact scale factor
for a current size of 4 times the target, e.g. 59 960 000 bytes against the
default 14 990 000 target): the clamped dimensions are 3x1, the re-snap
branch recomputes the height as int(3 / 3.5) = 0, and the resulting 3x0
dimensions do not preserve the 7/2 aspect ratio within any epsilon. -/
theorem resize_aspect_cex :
    (1 / 2 : ℚ) * (1 / 2) * 59960000 = 14990000 ∧
    resize_dims defaultSettings 7 2 (1 / 2) = (3, 0) ∧
    defaultSettings.max_file_size < 59960000 := by
  have h1 : ⌊(7 : ℚ) * (1 / 2)⌋ = 3 := by
    rw [Int.floor_eq_iff]; norm_num
  have h2 : ⌊(2 : ℚ) * (1 / 2)⌋ = 1 := by
    rw [Int.floor_eq_iff]; norm_num
  have h3 : ⌊(3 : ℚ) / ((7 : ℚ) / (2 : ℚ))⌋ = 0 := by
    rw [Int.floor_eq_iff]; norm_num
  have t3 : Int.toNat 3 = 3 := rfl
  have t1 : Int.toNat 1 = 1 := rfl
  have t0 : Int.toNat 0 = 0 := rfl
  refine ⟨by norm_num, ?_, by decide⟩
  simp only [resize_dims, defaultSettings]
  norm_num [t3, t1, t0]

/-- Claim C8 (amended): the resize dimension computation clamps both
dimensions to the configured maxima (whenever the clamped height is at least
1, which is exactly when the source does not raise a division by zero), and
preserves the aspect ratio within 1/new_height in the branch where the width
is recomputed from the height; in the other branch the recomputed height can
degenerate (see the counterexample), so no uniform epsilon bound holds.
Resizing runs only when the post-palette-search artifact still exceeds the
target and `allow_resize` is set. -/
theorem resize_geometry_amended :
    (∀ (s : CompressionSettings) (ow oh : ℕ) (scale : ℚ),
      1 ≤ ow → 1 ≤ oh → 0 ≤ scale →
      1 ≤ min (Int.toNat ⌊(oh : ℚ) * scale⌋) s.max_height →
      ((resize_dims s ow oh scale).1 ≤ s.max_width ∧
       (resize_dims s ow oh scale).2 ≤ s.max_height) ∧
      ((ow : ℚ) / (oh : ℚ)
          < ((min (Int.toNat ⌊(ow : ℚ) * scale⌋) s.max_width : ℕ) : ℚ)
            / ((min (Int.toNat ⌊(oh : ℚ) * scale⌋) s.max_height : ℕ) : ℚ) →
        |((resize_dims s ow oh scale).1 : ℚ) / ((resize_dims s ow oh scale).2 : ℚ)
            - (ow : ℚ) / (oh : ℚ)|
          < 1 / ((min (Int.toNat ⌊(oh : ℚ) * scale⌋) s.max_height : ℕ) : ℚ))) ∧
    (∀ (α : Type) (s : CompressionSettings) (sim : α → α → ℚ)
      (tS fS : List α → List ℚ → ℕ → ℕ) (rS : ℕ → ℕ)
      (decoded : Option (List (α × Option ℕ))),
      (optimize_gif s sim tS fS rS decoded).resized = true →
      s.allow_resize = true ∧
      ∃ n, (optimize_gif s sim tS fS rS decoded).pre_size = some n ∧
        s.max_file_size < n) := by
  constructor
  · intro s ow oh scale how hoh hsc hnh
    simp only [resize_dims]
    set nw := min (Int.toNat ⌊(ow : ℚ) * scale⌋) s.max_width with hnwdef
    set nh := min (Int.toNat ⌊(oh : ℚ) * scale⌋) s.max_height with hnhdef
    have hohQ : (0 : ℚ) < (oh : ℚ) := by exact_mod_cast hoh
    have howQ : (0 : ℚ) < (ow : ℚ) := by exact_mod_cast how
    have harpos : 0 < (ow : ℚ) / (oh : ℚ) := div_pos howQ hohQ
    have hnhQ : (0 : ℚ) < (nh : ℚ) := by exact_mod_cast hnh
    by_cases hbr : (ow : ℚ) / (oh : ℚ) < (nw : ℚ) / (nh : ℚ)
    · rw [if_pos hbr]
      set a := (ow : ℚ) / (oh : ℚ) with hadef
      set x := (nh : ℚ) * a with hxdef
      have hprod : x < (nw : ℚ) := by
        rw [hxdef, mul_comm]
        exact (lt_div_iff₀ hnhQ).mp hbr
      have hfl : ⌊x⌋ ≤ (nw : ℤ) :=
        le_of_lt (Int.floor_lt.mpr (by exact_mod_cast hprod))
      have hclamp1 : Int.toNat ⌊x⌋ ≤ s.max_width :=
        le_trans (Int.toNat_le.mpr (by exact_mod_cast hfl)) (min_le_right _ _)
      refine ⟨⟨hclamp1, min_le_right _ _⟩, ?_⟩
      intro _
      have hxnn : (0 : ℚ) ≤ x := by
        rw [hxdef]
        exact mul_nonneg (le_of_lt hnhQ) (le_of_lt harpos)
      have hflnn : 0 ≤ ⌊x⌋ := Int.floor_nonneg.mpr hxnn
      have hcast : ((Int.toNat ⌊x⌋ : ℕ) : ℚ) = ((⌊x⌋ : ℤ) : ℚ) := by
        exact_mod_cast congrArg (fun z : ℤ => (z : ℚ))
          (Int.toNat_of_nonneg hflnn)
      have hxa : x / (nh : ℚ) = a := mul_div_cancel_left₀ a (ne_of_gt hnhQ)
      show |((Int.toNat ⌊x⌋ : ℕ) : ℚ) / (nh : ℚ) - a| < 1 / (nh : ℚ)
      rw [hcast, ← hxa, div_sub_div_same, abs_div, abs_of_pos hnhQ]
      refine (div_lt_div_iff_of_pos_right hnhQ).mpr ?_
      rw [abs_lt]
      constructor <;> linarith [Int.floor_le x, Int.sub_one_lt_floor x]
    · rw [if_neg hbr]
      have hle : (nw : ℚ) / (nh : ℚ) ≤ (ow : ℚ) / (oh : ℚ) := not_lt.mp hbr
      have hnwle : (nw : ℚ) ≤ ((ow : ℚ) / (oh : ℚ)) * (nh : ℚ) :=
        (div_le_iff₀ hnhQ).mp hle
      have hdivle : (nw : ℚ) / ((ow : ℚ) / (oh : ℚ)) ≤ (nh : ℚ) := by
        rw [div_le_iff₀ harpos]
        linarith [hnwle]
      have hfl : ⌊(nw : ℚ) / ((ow : ℚ) / (oh : ℚ))⌋ ≤ (nh : ℤ) := by
        have := Int.floor_le_floor hdivle
        rwa [Int.floor_natCast] at this
      have hclamp2 : Int.toNat ⌊(nw : ℚ) / ((ow : ℚ) / (oh : ℚ))⌋ ≤ s.max_height :=
        le_trans (Int.toNat_le.mpr hfl) (min_le_right _ _)
      exact ⟨⟨min_le_right _ _, hclamp2⟩, fun hcontra => absurd hcontra hbr⟩
  · intro α s sim tS fS rS decoded h
    cases hcore : optimize_gif_core s sim tS fS rS decoded with
    | error e =>
      simp only [optimize_gif, hcore] at h
      cases h
    | ok v =>
      obtain ⟨b, f, p, rz⟩ := v
      simp only [optimize_gif, hcore] at h ⊢
      subst h
      have hg := core_resized α s sim tS fS rS decoded b f p hcore
      exact ⟨hg.1, ⟨p, rfl, hg.2⟩⟩

/-- Witness for C8 (amended): a 4x3 frame at scale 9/10 (clamped dimensions
3x2, width-recompute branch) keeps both dimensions under the maxima and the
ratio within 1/2 of 4/3; and a concrete oversized run shows the resize stage
fires only with `allow_resize` set and an oversized pre-resize artifact. -/
theorem resize_geometry_amended_witness :
    ((resize_dims defaultSettings 4 3 (9/10)).1 ≤ defaultSettings.max_width ∧
     (resize_dims defaultSettings 4 3 (9/10)).2 ≤ defaultSettings.max_height) ∧
    |((resize_dims defaultSettings 4 3 (9/10)).1 : ℚ)
        / ((resize_dims defaultSettings 4 3 (9/10)).2 : ℚ)
        - ((4 : ℕ) : ℚ) / ((3 : ℕ) : ℚ)|
      < 1 / ((min (Int.toNat ⌊((3 : ℕ) : ℚ) * (9/10)⌋) defaultSettings.max_height : ℕ) : ℚ) ∧
    (defaultSettings.allow_resize = true ∧
      ∃ n, (optimize_gif defaultSettings (fun _ _ : ℕ => (0 : ℚ)) oversizeOracle
          oversizeOracle (fun n => n) (some [((0 : ℕ), none)])).pre_size = some n ∧
        defaultSettings.max_file_size < n) := by
  have t2 : Int.toNat 2 = 2 := rfl
  have t3 : Int.toNat 3 = 3 := rfl
  have h1 := resize_geometry_amended.1 defaultSettings 4 3 (9/10)
    (by norm_num) (by norm_num) (by norm_num) (by norm_num [t2, defaultSettings])
  have h2 := resize_geometry_amended.2 ℕ defaultSettings (fun _ _ => (0 : ℚ))
    oversizeOracle oversizeOracle (fun n => n) (some [((0 : ℕ), none)]) (by decide)
  exact ⟨h1.1, h1.2 (by norm_num [t2, t3, defaultSettings]), h2⟩

end Gifer
